import Mathlib

/-!
Shallow embedding of the resilient paginated API-access layer of the
`slogs` CLI (source: `src/api/client.ts`): the rate-limit tracker, the
link-header cursor decoder, the request executor and the pagination
driver, together with proofs of the specified properties.

JavaScript numbers that can become NaN (results of `parseInt`) are
modelled as `Option Int`, with `none` standing for NaN; every JS
comparison involving NaN is false, which the definitions reflect.
-/

namespace Slogs

/-- A JS number that may be NaN: `none` is NaN. -/
abbrev JSNum := Option Int

/-- One pagination link: `{cursor, results}` as built by `parseLinkHeader`
(`results` is the has-more flag). -/
structure CursorLink where
  cursor : String
  results : Bool
deriving DecidableEq

/-- The `PaginationLinks` record of `types.ts`: optional `next` / `previous`. -/
structure PaginationLinks where
  next : Option CursorLink := none
  previous : Option CursorLink := none
deriving DecidableEq

/-- The client's mutable rate-limit state (`remaining`, `limit`, `reset`
in ms). Fields are `JSNum` because `parseInt` can write NaN into them. -/
structure RateLimitState where
  remaining : JSNum
  limit : JSNum
  reset : JSNum
deriving DecidableEq

/-- Initial state: `{ remaining: 100, limit: 100, reset: 0 }` (client.ts:17). -/
def initRateLimit : RateLimitState := ⟨some 100, some 100, some 0⟩

/-- The common JS whitespace characters (enough for `parseInt` trimming
and the regex's blank-skipping in the inputs that occur here). -/
def isJSWhitespace (c : Char) : Bool :=
  c = ' ' || c = '\t' || c = '\n' || c = '\r'

/-- JS `parseInt(s, 10)`: skip leading whitespace, optional sign, read a
maximal run of decimal digits; NaN (`none`) when there is no digit. -/
def parseIntJS (s : String) : JSNum :=
  let cs := s.toList.dropWhile isJSWhitespace
  let signRest : Bool × List Char :=
    match cs with
    | '-' :: r => (true, r)
    | '+' :: r => (false, r)
    | r => (false, r)
  let ds := signRest.2.takeWhile Char.isDigit
  if ds.isEmpty then none
  else
    let n : Nat := ds.foldl (fun a c => 10 * a + (c.toNat - 48)) 0
    some (if signRest.1 then -(n : Int) else (n : Int))

/-- A response header map; `getHeader` is `response.headers.get` (first
match, `none` when absent). -/
abbrev Headers := List (String × String)

def getHeader (hs : Headers) (k : String) : Option String :=
  (hs.find? (fun p => p.1 = k)).map (fun p => p.2)

/-- `updateRateLimitState` (client.ts:69-77): each field is overwritten by
`parseInt` of its header whenever that header is present and non-empty
(JS truthiness); `reset` is additionally multiplied by 1000. A present
but non-numeric header therefore writes NaN (`none`). -/
def updateRateLimitState (st : RateLimitState) (hs : Headers) : RateLimitState :=
  let rem := getHeader hs "x-sentry-rate-limit-remaining"
  let lim := getHeader hs "x-sentry-rate-limit-limit"
  let rst := getHeader hs "x-sentry-rate-limit-reset"
  { remaining :=
      match rem with
      | some v => if v = "" then st.remaining else parseIntJS v
      | none => st.remaining
    limit :=
      match lim with
      | some v => if v = "" then st.limit else parseIntJS v
      | none => st.limit
    reset :=
      match rst with
      | some v => if v = "" then st.reset else (parseIntJS v).map (fun n => n * 1000)
      | none => st.reset }

/-- The wait performed before a request (client.ts:28-31):
`reset - now` when `remaining <= 0 && now < reset`, else no wait.
A NaN field makes the JS comparison false, hence no wait. -/
def preRequestWait (st : RateLimitState) (now : Int) : Int :=
  match st.remaining, st.reset with
  | some rem, some rst => if rem ≤ 0 ∧ now < rst then rst - now else 0
  | _, _ => 0

/-- The 429 retry wait in ms (client.ts:49):
`parseInt(headers.get('retry-after') || '60', 10) * 1000`; the `|| '60'`
default applies only to an absent or empty header, and NaN propagates. -/
def retryAfterMs (h : Option String) : JSNum :=
  let s := match h with
    | some v => if v = "" then "60" else v
    | none => "60"
  (parseIntJS s).map (fun n => n * 1000)

/-- The delay a JS timer performs for a requested ms value: `setTimeout`
coerces NaN and negative delays to 0. -/
def effDelay : JSNum → Int
  | none => 0
  | some n => if n < 0 then 0 else n

/-! ## The link-header decoder (client.ts:79-96)

`parseLinkHeader` splits the header on commas and runs the regex
`/<[^>]+>\s*;\s*rel="(\w+)";\s*results="(\w+)";\s*cursor="([^"]+)"/`
over each part.  Every repetition in that pattern is followed by a
character its class excludes, so the scan is deterministic: the match
is modelled by trying `matchSegAt` at each start position. -/

/-- The regex class `\w`. -/
def isWordChar (c : Char) : Bool := c.isAlphanum || c = '_'

/-- Consume a literal: `dropLit lit s = some t` iff `s = lit ++ t`. -/
def dropLit : List Char → List Char → Option (List Char)
  | [], s => some s
  | c :: cs, d :: ds => if c = d then dropLit cs ds else none
  | _ :: _, [] => none

/-- `<[^>]+>`: an angle-bracketed non-empty URL. -/
def step1 (s : List Char) : Option (List Char) :=
  match dropLit ['<'] s with
  | none => none
  | some s1 =>
    if (s1.takeWhile (fun c => c ≠ '>')).isEmpty then none
    else dropLit ['>'] (s1.dropWhile (fun c => c ≠ '>'))

/-- `\s*;`: optional blanks then a semicolon. -/
def stepSemi (s : List Char) : Option (List Char) :=
  dropLit [';'] (s.dropWhile isJSWhitespace)

/-- `\s*key(p+)term`: blanks, a literal key, a non-empty capture of
characters satisfying `p`, then a literal terminator. -/
def grabAttr (key : List Char) (p : Char → Bool) (term : List Char)
    (s : List Char) : Option (List Char × List Char) :=
  match dropLit key (s.dropWhile isJSWhitespace) with
  | none => none
  | some s1 =>
    if (s1.takeWhile p).isEmpty then none
    else
      match dropLit term (s1.dropWhile p) with
      | none => none
      | some s2 => some (s1.takeWhile p, s2)

/-- One attempt of the regex at a fixed start position: on success the
three captures `(rel, results, cursor)`. -/
def matchSegAt (s : List Char) : Option (String × String × String) :=
  match step1 s with
  | none => none
  | some s1 =>
    match stepSemi s1 with
    | none => none
    | some s2 =>
      match grabAttr ("rel=\"".toList) isWordChar ("\";".toList) s2 with
      | none => none
      | some (rel, s3) =>
        match grabAttr ("results=\"".toList) isWordChar ("\";".toList) s3 with
        | none => none
        | some (res, s4) =>
          match grabAttr ("cursor=\"".toList) (fun c => c ≠ '"') ("\"".toList) s4 with
          | none => none
          | some (cur, _) => some (String.mk rel, String.mk res, String.mk cur)

/-- `part.match(regex)`: the first start position where the pattern matches. -/
def scanMatch : List Char → Option (String × String × String)
  | [] => none
  | c :: rest =>
    match matchSegAt (c :: rest) with
    | some r => some r
    | none => scanMatch rest

/-- JS `header.split(',')` on the character list. -/
def splitComma : List Char → List (List Char)
  | [] => [[]]
  | c :: rest =>
    if c = ',' then [] :: splitComma rest
    else
      match splitComma rest with
      | [] => [[c]]
      | seg :: segs => (c :: seg) :: segs

/-- The loop body of `parseLinkHeader`: a part that matches with
`rel` of `next`/`previous` sets that link; anything else is dropped. -/
def processPart (links : PaginationLinks) (part : List Char) : PaginationLinks :=
  match scanMatch part with
  | none => links
  | some (rel, res, cur) =>
    if rel = "next" then { links with next := some ⟨cur, res = "true"⟩ }
    else if rel = "previous" then { links with previous := some ⟨cur, res = "true"⟩ }
    else links

/-- `parseLinkHeader` (client.ts:79-96): `none`/empty yields `{}`,
otherwise fold the parts split on commas. -/
def parseLinkHeader : Option String → PaginationLinks
  | none => {}
  | some h => if h = "" then {} else (splitComma h.toList).foldl processPart {}

/-! ## The request executor (client.ts:23-67)

The HTTP transport is a script: the list of responses the server will
serve, in order; a `none` entry is a transport-level failure (the fetch
promise rejects).  Result records are abstracted to `Nat` ids.  The
executor threads the rate-limit state, a clock (advanced exactly by the
delays performed) and an event log of waits and issued requests; the
unbounded 429 recursion is made structural with fuel (`stuck` = the fuel
ran out, i.e. the run was not observed to finish). -/

/-- One scripted HTTP response: status, headers, error-body text, whether
`response.json()` succeeds, and the decoded records when it does. -/
structure Resp where
  status : Nat
  headers : Headers
  bodyText : String
  decodes : Bool
  data : List Nat
deriving DecidableEq

/-- The transport script; `none` is a transport failure. -/
abbrev Script := List (Option Resp)

/-- Observable events: a timed suspension and an issued HTTP request. -/
inductive Ev where
  | waitEv (ms : Int)
  | httpEv (path : String)
deriving DecidableEq

/-- What one call of `request` ends in. -/
inductive ReqResult where
  | ok (data : List Nat) (pagination : PaginationLinks)
  | apiError (status : Nat) (body : String)
  | transportError
  | decodeError
  | stuck
deriving DecidableEq

/-- `response.ok`: status in the 2xx range. -/
def statusOk (s : Nat) : Bool := decide (200 ≤ s ∧ s ≤ 299)

/-- `SentryClient.request` (client.ts:23-67): pre-wait on the rate limit,
issue the request, feed all headers into `updateRateLimitState`, retry
429s after the retry-after delay, throw on other non-2xx, else decode
body and link header.  Returns (result, state, events, remaining script,
clock). -/
def runRequest (path : String) :
    Nat → Script → RateLimitState → Int →
      ReqResult × RateLimitState × List Ev × Script × Int
  | 0, script, st, now => (.stuck, st, [], script, now)
  | Nat.succ fuel, script, st, now =>
    let w := preRequestWait st now
    let evs0 : List Ev := if w = 0 then [] else [.waitEv w]
    let now1 := now + w
    match script with
    | [] => (.stuck, st, evs0, [], now1)
    | none :: rest => (.transportError, st, evs0 ++ [.httpEv path], rest, now1)
    | some r :: rest =>
      let st1 := updateRateLimitState st r.headers
      if r.status = 429 then
        let d := effDelay (retryAfterMs (getHeader r.headers "retry-after"))
        let out := runRequest path fuel rest st1 (now1 + d)
        (out.1, out.2.1, evs0 ++ [.httpEv path, .waitEv d] ++ out.2.2.1, out.2.2.2)
      else if statusOk r.status then
        if r.decodes then
          (.ok r.data (parseLinkHeader (getHeader r.headers "link")), st1,
            evs0 ++ [.httpEv path], rest, now1)
        else (.decodeError, st1, evs0 ++ [.httpEv path], rest, now1)
      else (.apiError r.status r.bodyText, st1, evs0 ++ [.httpEv path], rest, now1)

/-! ## The pagination driver (client.ts:102-140) -/

/-- What one call of `getIssues` ends in; an error outcome carries no
records (the accumulator is discarded). -/
inductive DriverResult where
  | ok (issues : List Nat)
  | apiError (status : Nat) (body : String)
  | transportError
  | decodeError
  | stuck
deriving DecidableEq

/-- `pagination.next?.results ? pagination.next.cursor : undefined`
(client.ts:136). -/
def nextCursor (pag : PaginationLinks) : Option String :=
  match pag.next with
  | some l => if l.results then some l.cursor else none
  | none => none

/-- The do/while loop of `getIssues` (client.ts:124-139): fetch the page
at the cursor, append its records, break once `maxResults` records are
accumulated, else follow the decoded next cursor while truthy; every
exit slices the accumulator to `maxResults`. `path` builds the page path
from the current cursor; errors from `request` propagate immediately. -/
def getIssuesLoop (path : Option String → String) (maxResults : Nat) (reqFuel : Nat) :
    Nat → Script → RateLimitState → Int → List Nat → Option String →
      DriverResult × RateLimitState × List Ev × Script × Int
  | 0, script, st, now, _, _ => (.stuck, st, [], script, now)
  | Nat.succ fuel, script, st, now, acc, cursor =>
    let out := runRequest (path cursor) reqFuel script st now
    match out.1 with
    | .ok data pag =>
      let acc1 := acc ++ data
      if maxResults ≤ acc1.length then
        (.ok (acc1.take maxResults), out.2.1, out.2.2.1, out.2.2.2)
      else
        match nextCursor pag with
        | none => (.ok (acc1.take maxResults), out.2.1, out.2.2.1, out.2.2.2)
        | some c =>
          if c = "" then (.ok (acc1.take maxResults), out.2.1, out.2.2.1, out.2.2.2)
          else
            let out2 := getIssuesLoop path maxResults reqFuel fuel
              out.2.2.2.1 out.2.1 out.2.2.2.2 acc1 (some c)
            (out2.1, out2.2.1, out.2.2.1 ++ out2.2.2.1, out2.2.2.2)
    | .apiError s b => (.apiError s b, out.2.1, out.2.2.1, out.2.2.2)
    | .transportError => (.transportError, out.2.1, out.2.2.1, out.2.2.2)
    | .decodeError => (.decodeError, out.2.1, out.2.2.1, out.2.2.2)
    | .stuck => (.stuck, out.2.1, out.2.2.1, out.2.2.2)

/-- The caller-facing options of `getIssues`. -/
structure IssuesQuery where
  project : Option String := none
  query : Option String := none
  statsPeriod : Option String := none
  environment : Option String := none
  limit : Option Nat := none

/-- `options.limit || 25` (client.ts:122): an unset — or zero, which is
falsy — limit defaults to 25. -/
def maxResultsOf (limit : Option Nat) : Nat :=
  match limit with
  | some n => if n = 0 then 25 else n
  | none => 25

/-- Render `URLSearchParams` (keys are set in insertion order and none of
the keys used here repeats). -/
def renderParams : List (String × String) → String
  | [] => ""
  | [(k, v)] => k ++ "=" ++ v
  | (k, v) :: rest => k ++ "=" ++ v ++ "&" ++ renderParams rest

/-- A query param set only when its value is truthy (client.ts:111-114). -/
def paramOpt (k : String) (v : Option String) : List (String × String) :=
  match v with
  | some s => if s = "" then [] else [(k, s)]
  | none => []

/-- The params built at client.ts:109-114 (a zero limit is falsy and so
never rendered). -/
def baseParams (q : IssuesQuery) : List (String × String) :=
  paramOpt "query" q.query ++ paramOpt "statsPeriod" q.statsPeriod ++
    paramOpt "environment" q.environment ++
    (match q.limit with
     | some n => if n = 0 then [] else [("limit", toString n)]
     | none => [])

/-- The per-page path (client.ts:125-130): base params plus the cursor
when set, under the project- or organization-scoped route. -/
def issuesPath (org : String) (q : IssuesQuery) (cursor : Option String) : String :=
  let ps := renderParams (baseParams q ++
    (match cursor with | some c => [("cursor", c)] | none => []))
  match q.project with
  | some p => "/projects/" ++ org ++ "/" ++ p ++ "/issues/?" ++ ps
  | none => "/organizations/" ++ org ++ "/issues/?" ++ ps

/-- `SentryClient.getIssues` (client.ts:102-140). -/
def getIssues (org : String) (q : IssuesQuery) (fuel reqFuel : Nat)
    (script : Script) (st : RateLimitState) (now : Int) :
    DriverResult × RateLimitState × List Ev × Script × Int :=
  getIssuesLoop (issuesPath org q) (maxResultsOf q.limit) reqFuel fuel script st now [] none

/-- The path `testConnection` requests (client.ts:172). -/
def testPath (org : String) : String := "/organizations/" ++ org ++ "/"

/-- `SentryClient.testConnection` (client.ts:170-178): `true` on a
successful organization fetch, `false` on any caught failure; `none`
only when the underlying run was cut off by fuel (non-termination), in
which case the JS function would not have returned at all. -/
def testConnection (org : String) (reqFuel : Nat) (script : Script)
    (st : RateLimitState) (now : Int) : Option Bool :=
  match (runRequest (testPath org) reqFuel script st now).1 with
  | .ok _ _ => some true
  | .stuck => none
  | _ => some false

/-! ## Concrete fixtures used by the testable properties -/

/-- Page one of the three-page server: two records, next cursor `c2`. -/
def page1 : Resp :=
  ⟨200, [("link", "<u>; rel=\"next\"; results=\"true\"; cursor=\"c2\"")], "", true, [1, 2]⟩

/-- Page two: two records, next cursor `c3`. -/
def page2 : Resp :=
  ⟨200, [("link", "<u>; rel=\"next\"; results=\"true\"; cursor=\"c3\"")], "", true, [3, 4]⟩

/-- Page three: two records, no link header. -/
def page3 : Resp := ⟨200, [], "", true, [5, 6]⟩

/-- A 429 whose retry-after is present but not numeric. -/
def resp429abc : Resp := ⟨429, [("retry-after", "abc")], "", true, []⟩

/-- A 429 carrying `retry-after: 5`. -/
def resp429five : Resp := ⟨429, [("retry-after", "5")], "", true, []⟩

/-- A plain successful response with one record and no link header. -/
def respOkPlain : Resp := ⟨200, [], "", true, [7]⟩

/-- A 404 whose body text is `not found`. -/
def notFound : Resp := ⟨404, [], "not found", true, []⟩

/-- A page whose next link says `results="false"`: more records exist on
no page, though only one was returned. -/
def pageNoMore : Resp :=
  ⟨200, [("link", "<u>; rel=\"next\"; results=\"false\"; cursor=\"c9\"")], "", true, [1]⟩

/-- A single page with one record and no link header. -/
def pageSolo : Resp := ⟨200, [], "", true, [1]⟩

/-! ## Lemmas about the link-header decoder -/

theorem dropLit_eq {lit : List Char} : ∀ {s t : List Char}, dropLit lit s = some t → s = lit ++ t := by
  induction lit with
  | nil => intro s t h; simp only [dropLit, Option.some.injEq] at h; simp [h]
  | cons c cs ih =>
    intro s t h
    cases s with
    | nil => simp [dropLit] at h
    | cons d ds =>
      simp only [dropLit] at h
      split at h
      · rename_i hcd
        subst hcd
        simp [ih h]
      · exact absurd h (by simp)

theorem suffix_of_dropLit {lit s t : List Char} (h : dropLit lit s = some t) : t <:+ s := by
  rw [dropLit_eq h]; exact List.suffix_append lit t

theorem step1_suffix {s t : List Char} (h : step1 s = some t) : t <:+ s := by
  unfold step1 at h
  split at h
  · exact absurd h (by simp)
  · rename_i s1 h1
    split at h
    · exact absurd h (by simp)
    · exact ((suffix_of_dropLit h).trans
        (s1.dropWhile_suffix (fun c => c ≠ '>'))).trans (suffix_of_dropLit h1)

theorem stepSemi_suffix {s t : List Char} (h : stepSemi s = some t) : t <:+ s := by
  unfold stepSemi at h
  exact (suffix_of_dropLit h).trans (s.dropWhile_suffix isJSWhitespace)

theorem grabAttr_sub {key : List Char} {p : Char → Bool} {term s v t : List Char}
    (h : grabAttr key p term s = some (v, t)) : key <:+: s ∧ t <:+ s := by
  unfold grabAttr at h
  split at h
  · exact absurd h (by simp)
  · rename_i s1 h1
    split at h
    · exact absurd h (by simp)
    · split at h
      · exact absurd h (by simp)
      · rename_i s2 h2
        simp only [Option.some.injEq, Prod.mk.injEq] at h
        constructor
        · have hpre : key <+: s.dropWhile isJSWhitespace := by
            rw [dropLit_eq h1]; exact List.prefix_append key s1
          exact hpre.isInfix.trans (s.dropWhile_suffix isJSWhitespace).isInfix
        · rw [← h.2]
          exact (((suffix_of_dropLit h2).trans (s1.dropWhile_suffix p)).trans
            (suffix_of_dropLit h1)).trans (s.dropWhile_suffix isJSWhitespace)

theorem matchSegAt_sub {s : List Char} {r : String × String × String}
    (h : matchSegAt s = some r) :
    ("rel=\"".toList <:+: s) ∧ ("results=\"".toList <:+: s) ∧ ("cursor=\"".toList <:+: s) := by
  unfold matchSegAt at h
  split at h
  · exact absurd h (by simp)
  · rename_i s1 h1
    split at h
    · exact absurd h (by simp)
    · rename_i s2 h2
      split at h
      · exact absurd h (by simp)
      · rename_i rel s3 h3
        split at h
        · exact absurd h (by simp)
        · rename_i res s4 h4
          split at h
          · exact absurd h (by simp)
          · rename_i cur s5 h5
            have hs2 : s2 <:+ s := (stepSemi_suffix h2).trans (step1_suffix h1)
            have g3 := grabAttr_sub h3
            have g4 := grabAttr_sub h4
            have g5 := grabAttr_sub h5
            have hs3 : s3 <:+ s := g3.2.trans hs2
            have hs4 : s4 <:+ s := g4.2.trans hs3
            exact ⟨g3.1.trans hs2.isInfix, g4.1.trans hs3.isInfix, g5.1.trans hs4.isInfix⟩

theorem scanMatch_sub : ∀ {cs : List Char} {r : String × String × String},
    scanMatch cs = some r →
    ("rel=\"".toList <:+: cs) ∧ ("results=\"".toList <:+: cs) ∧ ("cursor=\"".toList <:+: cs) := by
  intro cs
  induction cs with
  | nil => intro r h; simp [scanMatch] at h
  | cons c rest ih =>
    intro r h
    unfold scanMatch at h
    split at h
    · rename_i r2 hm; exact matchSegAt_sub hm
    · have hres := ih h
      have hsfx : rest <:+ c :: rest := List.suffix_cons c rest
      exact ⟨hres.1.trans hsfx.isInfix, hres.2.1.trans hsfx.isInfix,
        hres.2.2.trans hsfx.isInfix⟩

theorem processPart_no_cursor {links : PaginationLinks} {part : List Char}
    (h : ¬ ("cursor=\"".toList <:+: part)) : processPart links part = links := by
  unfold processPart
  split
  · rfl
  · rename_i rel res cur hm; exact absurd (scanMatch_sub hm).2.2 h

theorem processPart_no_rel {links : PaginationLinks} {part : List Char}
    (h : ¬ ("rel=\"".toList <:+: part)) : processPart links part = links := by
  unfold processPart
  split
  · rfl
  · rename_i rel res cur hm; exact absurd (scanMatch_sub hm).1 h

theorem processPart_no_results {links : PaginationLinks} {part : List Char}
    (h : ¬ ("results=\"".toList <:+: part)) : processPart links part = links := by
  unfold processPart
  split
  · rfl
  · rename_i rel res cur hm; exact absurd (scanMatch_sub hm).2.1 h

theorem processPart_other_rel {links : PaginationLinks} {part : List Char}
    {rel res cur : String} (hm : scanMatch part = some (rel, res, cur))
    (h1 : rel ≠ "next") (h2 : rel ≠ "previous") : processPart links part = links := by
  unfold processPart
  rw [hm]
  simp [h1, h2]

/-! ## Lemmas about the pagination driver -/

/-- Whatever the fuel, state, clock, accumulator and cursor, a result the
driver loop reports as `ok` holds at most `maxResults` records: every
exit path slices the accumulator. -/
theorem getIssuesLoop_ok_length (path : Option String → String) (maxResults reqFuel : Nat) :
    ∀ (fuel : Nat) (script : Script) (st : RateLimitState) (now : Int)
      (acc : List Nat) (cursor : Option String) (l : List Nat),
      (getIssuesLoop path maxResults reqFuel fuel script st now acc cursor).1 = .ok l →
      l.length ≤ maxResults := by
  intro fuel
  induction fuel with
  | zero => intro script st now acc cursor l h; simp [getIssuesLoop] at h
  | succ f ih =>
    intro script st now acc cursor l h
    simp only [getIssuesLoop] at h
    split at h
    · rename_i data pag hres
      split at h
      · injection h with h
        subst h
        simp only [List.length_take]
        omega
      · split at h
        · injection h with h
          subst h
          simp only [List.length_take]
          omega
        · rename_i c hc
          split at h
          · injection h with h
            subst h
            simp only [List.length_take]
            omega
          · exact ih _ _ _ _ _ _ h
    · simp at h
    · simp at h
    · simp at h
    · simp at h

/-- In the initial rate-limit state no request ever waits: `remaining`
is 100, which is not `<= 0`. -/
theorem pre_wait_init (now : Int) : preRequestWait initRateLimit now = 0 := by
  have h : ¬ ((100 : Int) ≤ 0 ∧ now < 0) := by omega
  simp [preRequestWait, initRateLimit, h]

/-! ## The claims -/

/-- Claim C2: for every current time and rate-limit state, the
pre-request wait is exactly `reset - now` when `remaining <= 0` and
`now < reset` and exactly 0 otherwise; in the initial state (100, 100, 0)
no wait occurs; a NaN `remaining` or `reset` also means no wait, since
every JS comparison with NaN is false. -/
theorem pre_request_wait_spec (rem lim rst now : Int) :
    preRequestWait ⟨some rem, some lim, some rst⟩ now
        = (if rem ≤ 0 ∧ now < rst then rst - now else 0)
  ∧ preRequestWait initRateLimit now = 0
  ∧ (∀ (a b : JSNum), preRequestWait ⟨none, a, b⟩ now = 0)
  ∧ (∀ (a : Int) (b : JSNum), preRequestWait ⟨some a, b, none⟩ now = 0) :=
  ⟨rfl, pre_wait_init now, fun _ _ => rfl, fun _ _ => rfl⟩

/-- Claim C4, counterexample: a present but non-numeric
`x-sentry-rate-limit-remaining` header does not leave `remaining`
unchanged — `parseInt` yields NaN and the field is overwritten with it
(100 becomes NaN). -/
theorem update_unparseable_cex :
    (updateRateLimitState initRateLimit [("x-sentry-rate-limit-remaining", "abc")]).remaining
      ≠ initRateLimit.remaining := by decide

/-- Claim C4, amended: `updateRateLimitState` leaves a field unchanged
exactly when its header is absent or empty (JS falsy); any present
non-empty header overwrites the field with `parseInt` of its value —
NaN when the value is not numeric — and `reset` is scaled by 1000.
No error is raised in any case (the function is total). -/
theorem update_rate_limit_spec (st : RateLimitState) (hs : Headers) :
    ((getHeader hs "x-sentry-rate-limit-remaining" = none ∨
        getHeader hs "x-sentry-rate-limit-remaining" = some "") →
      (updateRateLimitState st hs).remaining = st.remaining)
  ∧ ((getHeader hs "x-sentry-rate-limit-limit" = none ∨
        getHeader hs "x-sentry-rate-limit-limit" = some "") →
      (updateRateLimitState st hs).limit = st.limit)
  ∧ ((getHeader hs "x-sentry-rate-limit-reset" = none ∨
        getHeader hs "x-sentry-rate-limit-reset" = some "") →
      (updateRateLimitState st hs).reset = st.reset)
  ∧ (∀ v, getHeader hs "x-sentry-rate-limit-remaining" = some v → v ≠ "" →
      (updateRateLimitState st hs).remaining = parseIntJS v)
  ∧ (∀ v, getHeader hs "x-sentry-rate-limit-limit" = some v → v ≠ "" →
      (updateRateLimitState st hs).limit = parseIntJS v)
  ∧ (∀ v, getHeader hs "x-sentry-rate-limit-reset" = some v → v ≠ "" →
      (updateRateLimitState st hs).reset = (parseIntJS v).map (fun n => n * 1000)) := by
  refine ⟨?_, ?_, ?_, ?_, ?_, ?_⟩
  · rintro (h | h) <;> simp [updateRateLimitState, h]
  · rintro (h | h) <;> simp [updateRateLimitState, h]
  · rintro (h | h) <;> simp [updateRateLimitState, h]
  · intro v h hv; simp [updateRateLimitState, h, hv]
  · intro v h hv; simp [updateRateLimitState, h, hv]
  · intro v h hv; simp [updateRateLimitState, h, hv]

/-- Claim C3, counterexample: on a 429 whose `retry-after` header is
present but not numeric, the executor's whole run performs a zero wait
(the logged wait event is 0 ms and the clock never advances), then
retries and succeeds — it does not wait the 60-second default. -/
theorem retry_after_unparseable_cex :
    (runRequest "/x" 2 [some resp429abc, some respOkPlain] initRateLimit 0).2.2.1
        = [Ev.httpEv "/x", Ev.waitEv 0, Ev.httpEv "/x"]
  ∧ (runRequest "/x" 2 [some resp429abc, some respOkPlain] initRateLimit 0).2.2.2.2 = 0
  ∧ (runRequest "/x" 2 [some resp429abc, some respOkPlain] initRateLimit 0).1
        = .ok [7] {} := by decide

/-- Claim C3, amended: the 60-second default applies exactly when the
`retry-after` header is absent or empty; a present non-empty header is
fed to `parseInt`, so a non-numeric value makes the computed wait NaN,
which the timer coerces to a zero wait — and in every 429 case the
executor still retries the identical request rather than failing. -/
theorem retry_after_wait_spec :
    retryAfterMs none = some 60000
  ∧ retryAfterMs (some "") = some 60000
  ∧ (∀ v, v ≠ "" → parseIntJS v = none →
      retryAfterMs (some v) = none ∧ effDelay (retryAfterMs (some v)) = 0)
  ∧ (∀ v n, v ≠ "" → parseIntJS v = some n → retryAfterMs (some v) = some (n * 1000))
  ∧ (∀ (path : String) (fuel : Nat) (rest : Script) (st : RateLimitState) (now : Int)
       (r : Resp), r.status = 429 →
       (runRequest path (fuel + 1) (some r :: rest) st now).1 =
         (runRequest path fuel rest (updateRateLimitState st r.headers)
           (now + preRequestWait st now +
             effDelay (retryAfterMs (getHeader r.headers "retry-after")))).1) := by
  refine ⟨by decide, by decide, ?_, ?_, ?_⟩
  · intro v hv hp
    refine ⟨?_, ?_⟩ <;> simp [retryAfterMs, effDelay, hv, hp]
  · intro v n hv hp
    simp [retryAfterMs, hv, hp]
  · intro path fuel rest st now r h429
    simp only [runRequest]
    simp [h429]

/-- Claim C7: a non-2xx, non-429 response makes the executor fail with
an `apiError` carrying that exact status and the full body text, in one
request with no retry (the rest of the script is untouched); the
pagination driver propagates that error unchanged, returning no partial
records; concretely a 404 with body `not found` surfaces as
`apiError 404 "not found"`. -/
theorem api_error_spec :
    (∀ (path : String) (fuel : Nat) (r : Resp) (rest : Script)
       (st : RateLimitState) (now : Int),
       r.status ≠ 429 → statusOk r.status = false →
       runRequest path (fuel + 1) (some r :: rest) st now
         = (.apiError r.status r.bodyText, updateRateLimitState st r.headers,
            (if preRequestWait st now = 0 then ([] : List Ev)
             else [.waitEv (preRequestWait st now)]) ++ [.httpEv path],
            rest, now + preRequestWait st now))
  ∧ (∀ (path : Option String → String) (m reqFuel fuel : Nat) (script : Script)
       (st : RateLimitState) (now : Int) (acc : List Nat) (cursor : Option String)
       (s : Nat) (b : String) (st1 : RateLimitState) (evs : List Ev)
       (sc1 : Script) (now1 : Int),
       runRequest (path cursor) reqFuel script st now = (.apiError s b, st1, evs, sc1, now1) →
       getIssuesLoop path m reqFuel (fuel + 1) script st now acc cursor
         = (.apiError s b, st1, evs, sc1, now1))
  ∧ runRequest "/x" 1 [some notFound] initRateLimit 0
      = (.apiError 404 "not found", initRateLimit, [.httpEv "/x"], [], 0) := by
  refine ⟨?_, ?_, by decide⟩
  · intro path fuel r rest st now h429 hok
    simp only [runRequest]
    simp [h429, hok]
  · intro path m reqFuel fuel script st now acc cursor s b st1 evs sc1 now1 hreq
    simp only [getIssuesLoop, hreq]

/-- Claim C8: for every number k of consecutive 429 responses carrying
`retry-after: 5`, the executor waits exactly 5000 ms after each
rejection and re-issues the identical request (same path) exactly once
per rejection — k+1 requests in all, with no bound on k — and the run
ends in success, never surfacing the 429s as an error; the clock
advances by 5000·k. -/
theorem rate_limit_retry_loop (path : String) :
    ∀ (k : Nat) (now : Int),
      runRequest path (k + 1) (List.replicate k (some resp429five) ++ [some respOkPlain])
          initRateLimit now
        = (.ok [7] {}, initRateLimit,
           (List.replicate k [Ev.httpEv path, Ev.waitEv 5000]).flatten ++ [Ev.httpEv path],
           [], now + 5000 * k) := by
  intro k
  induction k with
  | zero =>
    intro now
    simp [runRequest, pre_wait_init, respOkPlain, updateRateLimitState, getHeader,
      parseLinkHeader, statusOk]
  | succ kk ih =>
    intro now
    have hupd : updateRateLimitState initRateLimit resp429five.headers = initRateLimit := by
      decide
    have hd : effDelay (retryAfterMs (getHeader resp429five.headers "retry-after")) = 5000 := by
      decide
    have hst : resp429five.status = 429 := rfl
    rw [List.replicate_succ, List.cons_append]
    conv_lhs => rw [runRequest]
    simp only [pre_wait_init, hst, hupd, hd]
    rw [ih]
    simp [List.replicate_succ, List.flatten_cons, List.append_assoc]
    ring

/-- Claim C6: whenever a fetched page's decoded next link is absent or
has its has-more flag false, the driver stops right there — even with
fewer than `maxResults` records accumulated — returning the records
gathered so far (truncated to `maxResults`) and issuing no further
request: the final state, events, remaining script and clock are exactly
those of that single `runRequest` call. -/
theorem stop_on_no_more (path : Option String → String) (m reqFuel fuel : Nat)
    (script : Script) (st : RateLimitState) (now : Int) (acc : List Nat)
    (cursor : Option String) (data : List Nat) (pag : PaginationLinks)
    (st1 : RateLimitState) (evs : List Ev) (sc1 : Script) (now1 : Int)
    (hreq : runRequest (path cursor) reqFuel script st now = (.ok data pag, st1, evs, sc1, now1))
    (hstop : pag.next = none ∨ ∃ l, pag.next = some l ∧ l.results = false) :
    getIssuesLoop path m reqFuel (fuel + 1) script st now acc cursor
      = (.ok ((acc ++ data).take m), st1, evs, sc1, now1) := by
  have hnc : nextCursor pag = none := by
    rcases hstop with h | ⟨l, hl, hr⟩
    · simp [nextCursor, h]
    · simp [nextCursor, hl, hr]
  simp only [getIssuesLoop, hreq, hnc]
  split
  · rfl
  · rfl

/-- Claim C6, witness: a single page with one record whose next link
says `results="false"`, under `maxResults = 5`: the driver returns that
one record after one request and never touches the second scripted page. -/
theorem stop_on_no_more_witness :
    getIssuesLoop (fun _ => "/p") 5 3 4 [some pageNoMore, some page3] initRateLimit 0 [] none
      = (.ok [1], initRateLimit, [.httpEv "/p"], [some page3], 0) :=
  stop_on_no_more (fun _ => "/p") 5 3 3 [some pageNoMore, some page3] initRateLimit 0 []
    none [1] { next := some ⟨"c9", false⟩ } initRateLimit [.httpEv "/p"] [some page3] 0
    (by decide) (Or.inr ⟨⟨"c9", false⟩, rfl, rfl⟩)

/-- Claim C1: with `maxResults = 3` against three scripted pages of two
records each, `getIssues` returns exactly the first 3 records of pages
one and two in server order, issues exactly two requests (the third page
is still in the unconsumed script), and in general an `ok` result of the
driver loop never holds more than `maxResults` records (over-fetch from
the final page is truncated away). -/
theorem pagination_truncation_spec :
    getIssues "o" { limit := some 3 } 5 2 [some page1, some page2, some page3] initRateLimit 0
        = (.ok [1, 2, 3], initRateLimit,
           [.httpEv "/organizations/o/issues/?limit=3",
            .httpEv "/organizations/o/issues/?limit=3&cursor=c2"],
           [some page3], 0)
  ∧ [1, 2, 3] = (page1.data ++ page2.data).take 3
  ∧ (∀ (path : Option String → String) (maxResults reqFuel fuel : Nat) (script : Script)
       (st : RateLimitState) (now : Int) (acc : List Nat) (cursor : Option String)
       (l : List Nat),
       (getIssuesLoop path maxResults reqFuel fuel script st now acc cursor).1 = .ok l →
       l.length ≤ maxResults) :=
  ⟨by decide, by decide, fun path m rf f sc st now acc cur l h =>
     getIssuesLoop_ok_length path m rf f sc st now acc cur l h⟩

/-- Claim C9: when the caller leaves `limit` unset, the default bound of
25 still applies — a successful `getIssues` never returns more than 25
records; accumulation is never unbounded. -/
theorem default_limit_bound (org : String) (q : IssuesQuery) (fuel reqFuel : Nat)
    (script : Script) (st : RateLimitState) (now : Int) (l : List Nat)
    (hq : q.limit = none)
    (h : (getIssues org q fuel reqFuel script st now).1 = .ok l) :
    l.length ≤ 25 := by
  unfold getIssues at h
  have hb := getIssuesLoop_ok_length (issuesPath org q) (maxResultsOf q.limit) reqFuel fuel
    script st now [] none l h
  rw [hq] at hb
  exact hb

/-- Claim C9, witness: a one-page run with no limit set returns one
record, within the default bound of 25. -/
theorem default_limit_bound_witness : ([1] : List Nat).length ≤ 25 :=
  default_limit_bound "o" {} 3 3 [some pageSolo] initRateLimit 0 [1] rfl (by decide)

/-- Claim C10: `testConnection` never throws; it maps every outcome of
the underlying organization fetch to a boolean — `true` on success, and
`false` on an API error of any status, on a transport failure and on a
decode failure alike, swallowing the error. -/
theorem test_connection_spec (org : String) (reqFuel : Nat) (script : Script)
    (st : RateLimitState) (now : Int) :
    (∀ data pag, (runRequest (testPath org) reqFuel script st now).1 = .ok data pag →
        testConnection org reqFuel script st now = some true)
  ∧ (∀ s b, (runRequest (testPath org) reqFuel script st now).1 = .apiError s b →
        testConnection org reqFuel script st now = some false)
  ∧ ((runRequest (testPath org) reqFuel script st now).1 = .transportError →
        testConnection org reqFuel script st now = some false)
  ∧ ((runRequest (testPath org) reqFuel script st now).1 = .decodeError →
        testConnection org reqFuel script st now = some false) := by
  refine ⟨?_, ?_, ?_, ?_⟩
  · intro data pag h; simp [testConnection, h]
  · intro s b h; simp [testConnection, h]
  · intro h; simp [testConnection, h]
  · intro h; simp [testConnection, h]

/-- Claim C5: the decoder yields exactly
`next = (cursor abc, hasMore true)` on the single documented segment,
yields the empty link set on a null header, and drops silently — with
no error — any part that lacks a `cursor=`, `rel=` or `results=`
attribute, as well as any matched segment whose `rel` is neither `next`
nor `previous`. -/
theorem link_decoder_spec :
    (parseLinkHeader (some "<u>; rel=\"next\"; results=\"true\"; cursor=\"abc\"")
        = { next := some ⟨"abc", true⟩, previous := none })
  ∧ parseLinkHeader none = {}
  ∧ (∀ (links : PaginationLinks) (part : List Char),
       ¬ ("cursor=\"".toList <:+: part) → processPart links part = links)
  ∧ (∀ (links : PaginationLinks) (part : List Char),
       ¬ ("rel=\"".toList <:+: part) → processPart links part = links)
  ∧ (∀ (links : PaginationLinks) (part : List Char),
       ¬ ("results=\"".toList <:+: part) → processPart links part = links)
  ∧ (∀ (links : PaginationLinks) (part : List Char) (rel res cur : String),
       scanMatch part = some (rel, res, cur) → rel ≠ "next" → rel ≠ "previous" →
       processPart links part = links) :=
  ⟨by decide, rfl, fun _ _ h => processPart_no_cursor h, fun _ _ h => processPart_no_rel h,
   fun _ _ h => processPart_no_results h,
   fun _ _ _ _ _ hm h1 h2 => processPart_other_rel hm h1 h2⟩

end Slogs
